import Mathlib

/-!
Shallow embedding of the two core subsystems of the paddle-rust-sdk
repository: webhook signature parsing/verification (src/webhooks.rs,
src/error.rs) and the cursor-based pagination state machine
(src/paginated.rs).  Rust strings are modelled as Lean `String` /
`List Char`, byte vectors as `List Nat` (each element < 256), machine
integers as `Int`/`Nat` with explicit range checks where the Rust code
checks them.  Fallible Rust code returns `Except`; the one reachable
panic in the source is made explicit through the `PanicOr` wrapper.
External collaborators (the HTTP executor, the url crate's parser, the
serde_qs decoder) are parameters of the functions that call them.
-/

namespace Paddle

/-- Error generated when validating webhook signatures (mirrors
`SignatureError` in src/error.rs; the `Duration` payload of
`MaxVarianceExceeded` is modelled as a whole number of seconds). -/
inductive SignatureError where
  | Empty : SignatureError
  | InvalidFormat : SignatureError
  | InvalidPartFormat : SignatureError
  | ParseError : SignatureError
  | MaxVarianceExceeded : Int → SignatureError
deriving DecidableEq

/-- The crate-wide error enum (mirrors `Error` in src/error.rs).  The
payloads of the variants that wrap foreign-library errors are opaque to
the two core subsystems, so they are modelled as plain strings (and the
integer-parse and MAC errors, whose payloads the code never inspects,
carry none). -/
inductive Error where
  | Request : String → Error
  | Url : String → Error
  | PaddleApi : String → Error
  | QueryString : String → Error
  | PaddleSignature : SignatureError → Error
  | ParseIntError : Error
  | MacError : Error
  | JsonError : String → Error
deriving DecidableEq

/-- Outcome of running a piece of Rust code that can panic: either the
computation panics, or it produces a value. -/
inductive PanicOr (α : Type) where
  | panics : PanicOr α
  | value : α → PanicOr α
deriving DecidableEq

/-- Rust `str::split` with a single-character separator: the list of
(possibly empty) chunks between occurrences of the separator. -/
def splitOnChar (sep : Char) : List Char → List (List Char)
  | [] => [[]]
  | c :: rest =>
    let r := splitOnChar sep rest
    if c = sep then [] :: r
    else
      match r with
      | g :: gs => (c :: g) :: gs
      | [] => [[c]]

/-- Value of a decimal digit character, if it is one. -/
def decDigit (c : Char) : Option Nat :=
  if 48 ≤ c.toNat ∧ c.toNat ≤ 57 then some (c.toNat - 48) else none

/-- Value of a nonempty all-decimal-digit string, in the style of the
digit-accumulation loop of Rust integer parsing. -/
def decDigitsVal (cs : List Char) : Option Nat :=
  match cs with
  | [] => none
  | _ =>
    cs.foldl
      (fun acc c =>
        match acc, decDigit c with
        | some a, some d => some (10 * a + d)
        | _, _ => none)
      (some 0)

/-- Rust `i64::from_str` (`"...".parse::<i64>()`): optional sign, at
least one decimal digit, value within the i64 range; `none` is the
`ParseIntError` outcome. -/
def parseI64 (cs : List Char) : Option Int :=
  match cs with
  | '+' :: rest =>
    (decDigitsVal rest).bind fun v =>
      if (v : Int) ≤ 9223372036854775807 then some (v : Int) else none
  | '-' :: rest =>
    (decDigitsVal rest).bind fun v =>
      if (v : Int) ≤ 9223372036854775808 then some (-(v : Int)) else none
  | _ =>
    (decDigitsVal cs).bind fun v =>
      if (v : Int) ≤ 9223372036854775807 then some (v : Int) else none

/-- Modelled from chrono (an external crate): `DateTime::from_timestamp
(secs, 0)` succeeds exactly when `secs` lies in the representable
`NaiveDateTime` range, i.e. from 00:00:00 on -262144-01-01 to 23:59:59
on 262143-12-31 in the proleptic Gregorian calendar.  The resulting
moment is identified with its Unix-seconds value. -/
def fromTimestamp (secs : Int) : Option Int :=
  if -8334632937600 ≤ secs ∧ secs ≤ 8210298412799 then some secs else none

/-- Value of a hexadecimal digit character, if it is one. -/
def hexDigit (c : Char) : Option Nat :=
  if 48 ≤ c.toNat ∧ c.toNat ≤ 57 then some (c.toNat - 48)
  else if 97 ≤ c.toNat ∧ c.toNat ≤ 102 then some (c.toNat - 87)
  else if 65 ≤ c.toNat ∧ c.toNat ≤ 70 then some (c.toNat - 55)
  else none

/-- Rust `u8::from_str_radix(s, 16)` on a two-character slice: an
optional sign followed by digits, with the unsigned result fitting in
a byte (so a minus sign only admits value 0). -/
def u8_from_str_radix_16 (c1 c2 : Char) : Option Nat :=
  if c1 = '+' then hexDigit c2
  else if c1 = '-' then
    match hexDigit c2 with
    | some 0 => some 0
    | _ => none
  else
    match hexDigit c1, hexDigit c2 with
    | some a, some b => some (16 * a + b)
    | _, _ => none

/-- The `decode_hex` helper of src/webhooks.rs, transcribed over the
character list of its input.  It walks indices 0, 2, 4, … and slices
two characters at each: when exactly one character remains the Rust
slice `&s[i..i + 2]` is out of bounds and the function panics.  The
iterator short-circuits on the first bad pair, so a bad pair before the
dangling character yields the integer-parse error instead. -/
def decode_hex : List Char → PanicOr (Except Error (List Nat))
  | [] => .value (.ok [])
  | [_] => .panics
  | c1 :: c2 :: rest =>
    match u8_from_str_radix_16 c1 c2 with
    | none => .value (.error .ParseIntError)
    | some b =>
      match decode_hex rest with
      | .panics => .panics
      | .value (.error e) => .value (.error e)
      | .value (.ok bs) => .value (.ok (b :: bs))

instance {ε α : Type} [DecidableEq ε] [DecidableEq α] :
    DecidableEq (Except ε α) := fun a b =>
  match a, b with
  | .error e, .error f =>
    if h : e = f then .isTrue (by subst h; rfl) else .isFalse (by simp [h])
  | .error _, .ok _ => .isFalse (by simp)
  | .ok _, .error _ => .isFalse (by simp)
  | .ok x, .ok y =>
    if h : x = y then .isTrue (by subst h; rfl) else .isFalse (by simp [h])

/-- A parsed webhook signature header (mirrors `Signature` in
src/webhooks.rs): the claimed signing moment as Unix seconds, and the
decoded MAC bytes. -/
structure Signature where
  timestamp : Int
  signature : List Nat
deriving DecidableEq

/-- The per-part loop of `Signature::from_str`: split each part on
every occurrence of the equals sign, insist on exactly two pieces,
record a `ts` value through integer parsing (propagating its error) and
the timestamp-range check, record an `h1` value verbatim, and ignore
unrecognized keys.  Later occurrences of a key overwrite earlier
ones, exactly as the Rust assignments do. -/
def from_str_loop :
    List (List Char) → Option Int → Option (List Char) →
    Except Error (Option Int × Option (List Char))
  | [], ts, sg => .ok (ts, sg)
  | part :: rest, ts, sg =>
    let key_value := splitOnChar '=' part
    if key_value.length ≠ 2 then .error (.PaddleSignature .InvalidPartFormat)
    else
      let k := key_value.headD []
      let v := (key_value.drop 1).headD []
      if k = ['t', 's'] then
        match parseI64 v with
        | none => .error .ParseIntError
        | some n => from_str_loop rest (fromTimestamp n) sg
      else if k = ['h', '1'] then from_str_loop rest ts (some v)
      else from_str_loop rest ts sg

/-- The `FromStr` implementation for `Signature` in src/webhooks.rs:
reject the empty string, split on the semicolon into exactly two parts,
run the per-part loop, require that both a timestamp and a MAC string
were found (the source reuses `InvalidFormat` for this case), and
finally hex-decode the MAC string. -/
def Signature.from_str (s : String) : PanicOr (Except Error Signature) :=
  if s.data = [] then .value (.error (.PaddleSignature .Empty))
  else
    let signature_parts := splitOnChar ';' s.data
    if signature_parts.length ≠ 2 then
      .value (.error (.PaddleSignature .InvalidFormat))
    else
      match from_str_loop signature_parts none none with
      | .error e => .value (.error e)
      | .ok (some ts, some sg) =>
        match decode_hex sg with
        | .panics => .panics
        | .value (.error e) => .value (.error e)
        | .value (.ok bytes) => .value (.ok ⟨ts, bytes⟩)
      | .ok _ => .value (.error (.PaddleSignature .InvalidFormat))

/-- UTF-8 encoding of one character, as bytes. -/
def utf8Bytes (c : Char) : List Nat :=
  let n := c.toNat
  if n < 128 then [n]
  else if n < 2048 then [192 ||| (n >>> 6), 128 ||| (n &&& 63)]
  else if n < 65536 then
    [224 ||| (n >>> 12), 128 ||| ((n >>> 6) &&& 63), 128 ||| (n &&& 63)]
  else
    [240 ||| (n >>> 18), 128 ||| ((n >>> 12) &&& 63),
     128 ||| ((n >>> 6) &&& 63), 128 ||| (n &&& 63)]

/-- The bytes of a string (Rust `str::as_bytes`). -/
def strBytes (s : String) : List Nat :=
  s.data.flatMap utf8Bytes

/-- Two to the thirty-second power, the modulus of 32-bit words. -/
def w32 : Nat := 4294967296

/-- Right rotation of a 32-bit word by n bits. -/
def rotr32 (n x : Nat) : Nat :=
  ((x >>> n) ||| (x <<< (32 - n))) % w32

/-- Big-endian byte decomposition of a number into k bytes. -/
def toBytesBE (k n : Nat) : List Nat :=
  (List.range k).map fun i => (n >>> (8 * (k - 1 - i))) &&& 255

/-- The SHA-256 round constants (decimal). -/
def sha256K : List Nat :=
  [1116352408, 1899447441, 3049323471, 3921009573,
   961987163, 1508970993, 2453635748, 2870763221,
   3624381080, 310598401, 607225278, 1426881987,
   1925078388, 2162078206, 2614888103, 3248222580,
   3835390401, 4022224774, 264347078, 604807628,
   770255983, 1249150122, 1555081692, 1996064986,
   2554220882, 2821834349, 2952996808, 3210313671,
   3336571891, 3584528711, 113926993, 338241895,
   666307205, 773529912, 1294757372, 1396182291,
   1695183700, 1986661051, 2177026350, 2456956037,
   2730485921, 2820302411, 3259730800, 3345764771,
   3516065817, 3600352804, 4094571909, 275423344,
   430227734, 506948616, 659060556, 883997877,
   958139571, 1322822218, 1537002063, 1747873779,
   1955562222, 2024104815, 2227730452, 2361852424,
   2428436474, 2756734187, 3204031479, 3329325298]

/-- The SHA-256 initial hash state (decimal). -/
def sha256H0 : List Nat :=
  [1779033703, 3144134277, 1013904242, 2773480762,
   1359893119, 2600822924, 528734635, 1541459225]

/-- Next word of the SHA-256 message schedule, from the words so far. -/
def sha256WNext (w : List Nat) : Nat :=
  let n := w.length
  let a := w.getD (n - 16) 0
  let b := w.getD (n - 15) 0
  let c := w.getD (n - 7) 0
  let d := w.getD (n - 2) 0
  let s0 := rotr32 7 b ^^^ rotr32 18 b ^^^ (b >>> 3)
  let s1 := rotr32 17 d ^^^ rotr32 19 d ^^^ (d >>> 10)
  (a + s0 + c + s1) % w32

/-- The 64-word message schedule of one 64-byte chunk. -/
def sha256Schedule (chunk : List Nat) : List Nat :=
  let w0 := (List.range 16).map fun i =>
    ((chunk.getD (4 * i) 0) <<< 24) + ((chunk.getD (4 * i + 1) 0) <<< 16) +
      ((chunk.getD (4 * i + 2) 0) <<< 8) + chunk.getD (4 * i + 3) 0
  (List.range 48).foldl (fun w _ => w ++ [sha256WNext w]) w0

/-- One SHA-256 round on the eight working words. -/
def sha256Round (st : List Nat) (k w : Nat) : List Nat :=
  match st with
  | [a, b, c, d, e, f, g, h] =>
    let S1 := rotr32 6 e ^^^ rotr32 11 e ^^^ rotr32 25 e
    let ch := (e &&& f) ^^^ ((e ^^^ 4294967295) &&& g)
    let t1 := (h + S1 + ch + k + w) % w32
    let S0 := rotr32 2 a ^^^ rotr32 13 a ^^^ rotr32 22 a
    let maj := (a &&& b) ^^^ (a &&& c) ^^^ (b &&& c)
    let t2 := (S0 + maj) % w32
    [(t1 + t2) % w32, a, b, c, (d + t1) % w32, e, f, g]
  | _ => st

/-- SHA-256 compression of one 64-byte chunk into the hash state. -/
def sha256Compress (h : List Nat) (chunk : List Nat) : List Nat :=
  let w := sha256Schedule chunk
  let st := (sha256K.zip w).foldl (fun st kw => sha256Round st kw.1 kw.2) h
  List.zipWith (fun x y => (x + y) % w32) h st

/-- SHA-256 padding: a 0x80 byte, zeros to 56 mod 64, and the bit
length as eight big-endian bytes. -/
def sha256Pad (msg : List Nat) : List Nat :=
  let len := msg.length
  let zeros := (64 - (len + 9) % 64) % 64
  msg ++ 128 :: List.replicate zeros 0 ++ toBytesBE 8 (8 * len)

/-- The successive 64-byte chunks of a padded message. -/
def chunks64 (l : List Nat) : List (List Nat) :=
  (List.range (l.length / 64)).map fun i => ((l.drop (64 * i)).take 64)

/-- SHA-256 of a byte sequence, as 32 bytes. -/
def sha256 (msg : List Nat) : List Nat :=
  ((chunks64 (sha256Pad msg)).foldl sha256Compress sha256H0).flatMap
    (toBytesBE 4)

/-- HMAC-SHA256 with an arbitrary-length key (the hash-then-pad key
derivation is what lets `HmacSha256::new_from_slice` accept keys of any
size). -/
def hmacSha256 (key msg : List Nat) : List Nat :=
  let k0 := if 64 < key.length then sha256 key else key
  let k := k0 ++ List.replicate (64 - k0.length) 0
  let ipad := k.map fun b => b ^^^ 54
  let opad := k.map fun b => b ^^^ 92
  sha256 (opad ++ sha256 (ipad ++ msg))

/-- The canonical signed payload of `Signature::verify`: the ASCII
decimal Unix-seconds timestamp, a literal colon, then the request body
(`format!` of src/webhooks.rs line 46). -/
def signedPayload (timestamp : Int) (request_body : String) : String :=
  toString timestamp ++ ":" ++ request_body

/-- The `Signature::verify` method of src/webhooks.rs.  The ambient
clock (`Utc::now()`) is the explicit parameter `now`, in Unix seconds;
`maximum_variance` is the payload of the `MaximumVariance` wrapper, a
whole number of seconds or `none` for no limit.  The staleness check
runs first; only then is the expected MAC computed over the canonical
payload and compared (`Mac::verify_slice`) against the parsed MAC. -/
def Signature.verify (sig : Signature) (request_body : String)
    (key : String) (maximum_variance : Option Int) (now : Int) :
    Except Error Unit :=
  match maximum_variance with
  | some mv =>
    if sig.timestamp + mv < now then
      .error (.PaddleSignature (.MaxVarianceExceeded mv))
    else
      let expected := hmacSha256 (strBytes key)
        (strBytes (signedPayload sig.timestamp request_body))
      if sig.signature = expected then .ok () else .error .MacError
  | none =>
    let expected := hmacSha256 (strBytes key)
      (strBytes (signedPayload sig.timestamp request_body))
    if sig.signature = expected then .ok () else .error .MacError

/-- A minimal model of `serde_json::Value`, the intermediate query
representation threaded through the pagination cursor. -/
inductive Json where
  | null : Json
  | bool : Bool → Json
  | num : Int → Json
  | str : String → Json
  | arr : List Json → Json
  | obj : List (String × Json) → Json

/-- Pagination metadata of a list response (the fields of
`entities::Pagination` used by the cursor are `has_more` and `next`;
the others ride along). -/
structure Pagination where
  per_page : Int
  next : String
  has_more : Bool
  estimated_total : Int
deriving DecidableEq

/-- Meta information of an API response (src/response.rs). -/
structure Meta where
  request_id : String
  pagination : Option Pagination
deriving DecidableEq

/-- Success response envelope of the API (src/response.rs). -/
structure SuccessResponse (T : Type) where
  data : T
  meta : Meta
deriving DecidableEq

/-- HTTP method, as far as the cursor is concerned. -/
inductive Method where
  | GET : Method
  | POST : Method
  | PUT : Method
  | PATCH : Method
  | DELETE : Method
deriving DecidableEq

/-- What the cursor reads off a parsed `next` URL: its path and its
optional query string (`Url::path` and `Url::query` of the url crate,
which is an external collaborator and is therefore a parameter below,
as is the serde_qs decoder). -/
structure UrlParts where
  path : String
  query : Option String
deriving DecidableEq

/-- The pagination cursor (struct `Paginated` of src/paginated.rs).
The borrowed `client` reference becomes the `send` parameter of
`Paginated.next`, and the `PhantomData` marker is dropped; the three
data fields are kept as in the source. -/
structure Paginated (T : Type) where
  path : String
  query : Option Json
  error : Option Error

/-- `Paginated::new` of src/paginated.rs.  Serialization of the
caller's filter (`serde_json::to_value`, an external collaborator) is
passed in as its outcome; a failure is stored in the cursor rather than
returned, so construction itself always yields a cursor. -/
def Paginated.new {T : Type} (path : String)
    (serialized : Except Error Json) : Paginated T :=
  match serialized with
  | .ok query => { path := path, query := some query, error := none }
  | .error err => { path := path, query := none, error := some err }

/-- `Paginated::next` of src/paginated.rs, transcribed line by line.
The executor (`Paddle::send`) is the parameter `send`, explicit-state
over a world type `W`; `url_parse` stands for `Url::parse` (giving the
path and query of the parsed URL) and `qs_from_str` for
`serde_qs::from_str` into a string-keyed map.  As in the source, a
stored construction error is taken and returned first; otherwise the
pending query is taken (left empty), one GET call is made, and only
when the response reports more pages are the path and query replaced
from the `next` URL. -/
def Paginated.next {T W : Type}
    (send : W → Json → Method → String →
      Except Error (SuccessResponse T) × W)
    (url_parse : String → Except Error UrlParts)
    (qs_from_str : String → Except Error (List (String × Json)))
    (p : Paginated T) (w : W) :
    Except Error (Option (SuccessResponse T)) × Paginated T × W :=
  match p.error with
  | some err => (.error err, { p with error := none }, w)
  | none =>
    match p.query with
    | some query =>
      let p := { p with query := none }
      match send w query .GET p.path with
      | (.error e, w) => (.error e, p, w)
      | (.ok response, w) =>
        match response.meta.pagination with
        | some pagination =>
          if pagination.has_more then
            match url_parse pagination.next with
            | .error e => (.error e, p, w)
            | .ok url =>
              let p := { p with path := url.path }
              match url.query.map qs_from_str with
              | some (.error e) => (.error e, p, w)
              | some (.ok q) =>
                (.ok (some response), { p with query := some (Json.obj q) }, w)
              | none =>
                (.ok (some response), { p with query := some (Json.obj []) }, w)
          else (.ok (some response), p, w)
        | none => (.ok (some response), p, w)
    | none => (.ok none, p, w)

/-- Repeatedly advance the cursor a given number of times, collecting
each call's outcome in order. -/
def Paginated.runN {T W : Type}
    (send : W → Json → Method → String →
      Except Error (SuccessResponse T) × W)
    (url_parse : String → Except Error UrlParts)
    (qs_from_str : String → Except Error (List (String × Json))) :
    Nat → Paginated T → W →
    List (Except Error (Option (SuccessResponse T))) × Paginated T × W
  | 0, p, w => ([], p, w)
  | n + 1, p, w =>
    match Paginated.next send url_parse qs_from_str p w with
    | (r, p2, w2) =>
      match Paginated.runN send url_parse qs_from_str n p2 w2 with
      | (rs, p3, w3) => (r :: rs, p3, w3)

/-- Modelled from the spec: the crate documentation (src/lib.rs) and
the customers-all example call a bulk method `all()` on `Paginated`,
but its definition is absent from the source snapshot.  Per the spec it
repeatedly calls `advance` (`next`) until exhaustion, concatenating
every page's items into one sequence and not bypassing the single-page
transition logic; the embedding gives the loop explicit fuel since all
definitions here are total. -/
def Paginated.all {α W : Type}
    (send : W → Json → Method → String →
      Except Error (SuccessResponse (List α)) × W)
    (url_parse : String → Except Error UrlParts)
    (qs_from_str : String → Except Error (List (String × Json))) :
    Nat → Paginated (List α) → W →
    Except Error (List α) × Paginated (List α) × W
  | 0, p, w => (.ok [], p, w)
  | n + 1, p, w =>
    match Paginated.next send url_parse qs_from_str p w with
    | (.error e, p2, w2) => (.error e, p2, w2)
    | (.ok none, p2, w2) => (.ok [], p2, w2)
    | (.ok (some response), p2, w2) =>
      match Paginated.all send url_parse qs_from_str n p2 w2 with
      | (.ok rest, p3, w3) => (.ok (response.data ++ rest), p3, w3)
      | (.error e, p3, w3) => (.error e, p3, w3)

/-- An executor that serves a fixed script of responses in order and
counts how many calls have been made: the world is the pair of the call
counter and the responses not yet served.  Calling it past the end of
the script is a transport error (and still counts as a call). -/
def scriptSend {T : Type} :
    (Nat × List (Except Error (SuccessResponse T))) → Json → Method →
      String →
    Except Error (SuccessResponse T) ×
      (Nat × List (Except Error (SuccessResponse T)))
  | (n, []), _, _, _ => (.error (.Request "script exhausted"), (n + 1, []))
  | (n, r :: rest), _, _, _ => (r, (n + 1, rest))

/-- Decoding the optional query string of a `next` URL, the way
`Paginated::next` does: through the decoder when a query string is
present, the empty map when absent. -/
def QueryDecodes
    (qs_from_str : String → Except Error (List (String × Json)))
    (uq : Option String) (q : List (String × Json)) : Prop :=
  match uq with
  | some s => qs_from_str s = .ok q
  | none => q = []

/-- A well-formed page sequence in the sense of the spec: every page
but the last reports `has_more = true` together with a `next` URL that
the URL parser and query decoder accept, and the last page reports
`has_more = false`. -/
inductive PageChain {T : Type}
    (url_parse : String → Except Error UrlParts)
    (qs_from_str : String → Except Error (List (String × Json))) :
    List (SuccessResponse T) → Prop
  | last (p : SuccessResponse T) (pg : Pagination)
      (hp : p.meta.pagination = some pg) (hm : pg.has_more = false) :
      PageChain url_parse qs_from_str [p]
  | more (p : SuccessResponse T) (pg : Pagination) (u : UrlParts)
      (q : List (String × Json)) (rest : List (SuccessResponse T))
      (hp : p.meta.pagination = some pg) (hm : pg.has_more = true)
      (hu : url_parse pg.next = .ok u)
      (hq : QueryDecodes qs_from_str u.query q)
      (hrest : PageChain url_parse qs_from_str rest) :
      PageChain url_parse qs_from_str (p :: rest)

/-!  Theorems.  Shared helper lemmas and concrete fixtures come first,
then one theorem (with counterexample and witness where applicable) per
claim of the specification.  -/

/-- Advancing an exhausted cursor returns the terminal value and leaves
both the cursor and the world untouched. -/
theorem next_exhausted {T W : Type}
    (send : W → Json → Method → String →
      Except Error (SuccessResponse T) × W)
    (url_parse : String → Except Error UrlParts)
    (qs_from_str : String → Except Error (List (String × Json)))
    (path : String) (w : W) :
    Paginated.next send url_parse qs_from_str ⟨path, none, none⟩ w =
      (.ok none, ⟨path, none, none⟩, w) := rfl

/-- Repeatedly advancing an exhausted cursor yields only terminal
values and never touches the world. -/
theorem runN_exhausted {T W : Type}
    (send : W → Json → Method → String →
      Except Error (SuccessResponse T) × W)
    (url_parse : String → Except Error UrlParts)
    (qs_from_str : String → Except Error (List (String × Json)))
    (n : Nat) (path : String) (w : W) :
    Paginated.runN send url_parse qs_from_str n ⟨path, none, none⟩ w =
      (List.replicate n (.ok none), ⟨path, none, none⟩, w) := by
  induction n with
  | zero => rfl
  | succ k ih =>
    simp [Paginated.runN, next_exhausted, ih, List.replicate]

/-- An executor that always fails with a transport error. -/
def failSend : Unit → Json → Method → String →
    Except Error (SuccessResponse Nat) × Unit :=
  fun _ _ _ _ => (.error (.Request "boom"), ())

/-- A URL parser stub for runs that never reach URL parsing. -/
def noUrl : String → Except Error UrlParts :=
  fun _ => .error (.Url "unused")

/-- A query-string decoder stub for runs that never reach decoding. -/
def noQs : String → Except Error (List (String × Json)) :=
  fun _ => .error (.QueryString "unused")

/-- C1 counterexample: a cursor in the Pending state whose advance
fails with a transport error does NOT keep its pending query — the
query was taken before the call and is gone afterwards, so the state is
not the same as before the call, contrary to the claim. -/
theorem c1_counterexample :
    (Paginated.next failSend noUrl noQs
        ⟨"/products", some (Json.obj []), none⟩ ()).1 =
      .error (.Request "boom") ∧
    (Paginated.next failSend noUrl noQs
        ⟨"/products", some (Json.obj []), none⟩ ()).2.1.query = none ∧
    (Paginated.next failSend noUrl noQs
        ⟨"/products", some (Json.obj []), none⟩ ()).2.1.query ≠
      some (Json.obj []) := by
  refine ⟨rfl, rfl, ?_⟩
  intro h
  exact Option.noConfusion h

/-- C1 (amended): if an advance from a Pending cursor returns an error,
the pending query has already been consumed (`query` is `none`, `error`
is `none`), so an immediately repeated advance does not re-issue the
request: it returns the terminal no-more value and changes nothing. -/
theorem c1_error_consumes_query {T W : Type}
    (send : W → Json → Method → String →
      Except Error (SuccessResponse T) × W)
    (url_parse : String → Except Error UrlParts)
    (qs_from_str : String → Except Error (List (String × Json)))
    (p : Paginated T) (w : W) (q : Json) (e : Error)
    (herr : p.error = none) (hq : p.query = some q)
    (hfail : (Paginated.next send url_parse qs_from_str p w).1 =
      .error e) :
    (Paginated.next send url_parse qs_from_str p w).2.1.query = none ∧
    (Paginated.next send url_parse qs_from_str p w).2.1.error = none ∧
    Paginated.next send url_parse qs_from_str
        (Paginated.next send url_parse qs_from_str p w).2.1
        (Paginated.next send url_parse qs_from_str p w).2.2 =
      (.ok none,
        (Paginated.next send url_parse qs_from_str p w).2.1,
        (Paginated.next send url_parse qs_from_str p w).2.2) := by
  obtain ⟨path, pq, perr⟩ := p
  simp only at herr hq
  subst herr hq
  rcases hsend : send w q .GET path with ⟨r, w2⟩
  cases r with
  | error e2 =>
    have hred : Paginated.next send url_parse qs_from_str
        ⟨path, some q, none⟩ w = (.error e2, ⟨path, none, none⟩, w2) := by
      simp [Paginated.next, hsend]
    rw [hred]
    exact ⟨rfl, rfl, rfl⟩
  | ok response =>
    rcases hpg : response.meta.pagination with _ | pagination
    · have hred : Paginated.next send url_parse qs_from_str
          ⟨path, some q, none⟩ w =
          (.ok (some response), ⟨path, none, none⟩, w2) := by
        simp [Paginated.next, hsend, hpg]
      rw [hred] at hfail
      exact absurd hfail (by simp)
    · rcases hhm : pagination.has_more with _ | _
      · have hred : Paginated.next send url_parse qs_from_str
            ⟨path, some q, none⟩ w =
            (.ok (some response), ⟨path, none, none⟩, w2) := by
          simp [Paginated.next, hsend, hpg, hhm]
        rw [hred] at hfail
        exact absurd hfail (by simp)
      · rcases hurl : url_parse pagination.next with e2 | u
        · have hred : Paginated.next send url_parse qs_from_str
              ⟨path, some q, none⟩ w =
              (.error e2, ⟨path, none, none⟩, w2) := by
            simp [Paginated.next, hsend, hpg, hhm, hurl]
          rw [hred]
          exact ⟨rfl, rfl, rfl⟩
        · rcases huq : u.query with _ | qstr
          · have hred : Paginated.next send url_parse qs_from_str
                ⟨path, some q, none⟩ w =
                (.ok (some response),
                  ⟨u.path, some (Json.obj []), none⟩, w2) := by
              simp [Paginated.next, hsend, hpg, hhm, hurl, huq]
            rw [hred] at hfail
            exact absurd hfail (by simp)
          · rcases hqs : qs_from_str qstr with e2 | qlist
            · have hred : Paginated.next send url_parse qs_from_str
                  ⟨path, some q, none⟩ w =
                  (.error e2, ⟨u.path, none, none⟩, w2) := by
                simp [Paginated.next, hsend, hpg, hhm, hurl, huq, hqs]
              rw [hred]
              exact ⟨rfl, rfl, rfl⟩
            · have hred : Paginated.next send url_parse qs_from_str
                  ⟨path, some q, none⟩ w =
                  (.ok (some response),
                    ⟨u.path, some (Json.obj qlist), none⟩, w2) := by
                simp [Paginated.next, hsend, hpg, hhm, hurl, huq, hqs]
              rw [hred] at hfail
              exact absurd hfail (by simp)

/-- C1 witness: the amended theorem applied to a concrete Pending
cursor whose executor fails. -/
theorem c1_witness :
    (Paginated.next failSend noUrl noQs
        ⟨"/products", some (Json.obj []), none⟩ ()).2.1.query = none ∧
    (Paginated.next failSend noUrl noQs
        ⟨"/products", some (Json.obj []), none⟩ ()).2.1.error = none ∧
    Paginated.next failSend noUrl noQs
        (Paginated.next failSend noUrl noQs
          ⟨"/products", some (Json.obj []), none⟩ ()).2.1
        (Paginated.next failSend noUrl noQs
          ⟨"/products", some (Json.obj []), none⟩ ()).2.2 =
      (.ok none,
        (Paginated.next failSend noUrl noQs
          ⟨"/products", some (Json.obj []), none⟩ ()).2.1,
        (Paginated.next failSend noUrl noQs
          ⟨"/products", some (Json.obj []), none⟩ ()).2.2) :=
  c1_error_consumes_query failSend noUrl noQs
    ⟨"/products", some (Json.obj []), none⟩ () (Json.obj [])
    (.Request "boom") rfl rfl rfl

/-- C8: cursor construction never fails — a successful serialization
is stored as the pending query, a failed one is stored as a deferred
error; the first advance returns exactly that stored error without
invoking the executor (the world of an arbitrary executor is
untouched), and every subsequent advance behaves as exhausted. -/
theorem c8_new_defers_serialization_error {T W : Type}
    (send : W → Json → Method → String →
      Except Error (SuccessResponse T) × W)
    (url_parse : String → Except Error UrlParts)
    (qs_from_str : String → Except Error (List (String × Json)))
    (path : String) (q : Json) (e : Error) (w : W) :
    (Paginated.new path (.ok q) : Paginated T) = ⟨path, some q, none⟩ ∧
    (Paginated.new path (.error e) : Paginated T) =
      ⟨path, none, some e⟩ ∧
    Paginated.next send url_parse qs_from_str
        (Paginated.new path (.error e) : Paginated T) w =
      (.error e, ⟨path, none, none⟩, w) ∧
    Paginated.next send url_parse qs_from_str
        (⟨path, none, none⟩ : Paginated T) w =
      (.ok none, ⟨path, none, none⟩, w) :=
  ⟨rfl, rfl, rfl, rfl⟩

/-- Draining a well-formed page chain with the counting script
executor: every call is counted, pages come back in order, the cursor
ends exhausted, and the script is fully consumed.  The call counter is
generalized so that the statement inducts. -/
theorem drain_aux {T : Type}
    (url_parse : String → Except Error UrlParts)
    (qs_from_str : String → Except Error (List (String × Json)))
    (pages : List (SuccessResponse T))
    (hchain : PageChain url_parse qs_from_str pages) :
    ∀ (path0 : String) (q0 : Json) (m c : Nat),
    (Paginated.runN scriptSend url_parse qs_from_str (pages.length + m)
        ⟨path0, some q0, none⟩ (c, pages.map .ok)).1 =
      pages.map (fun p => .ok (some p)) ++
        List.replicate m (.ok none) ∧
    (Paginated.runN scriptSend url_parse qs_from_str (pages.length + m)
        ⟨path0, some q0, none⟩ (c, pages.map .ok)).2.1.query = none ∧
    (Paginated.runN scriptSend url_parse qs_from_str (pages.length + m)
        ⟨path0, some q0, none⟩ (c, pages.map .ok)).2.1.error = none ∧
    (Paginated.runN scriptSend url_parse qs_from_str (pages.length + m)
        ⟨path0, some q0, none⟩ (c, pages.map .ok)).2.2 =
      (c + pages.length, []) := by
  induction hchain with
  | last p pg hp hm =>
    intro path0 q0 m c
    have hstep : Paginated.next scriptSend url_parse qs_from_str
        ⟨path0, some q0, none⟩ (c, [Except.ok p]) =
        (.ok (some p), ⟨path0, none, none⟩, (c + 1, [])) := by
      simp [Paginated.next, scriptSend, hp, hm]
    have hlen : List.length [p] + m = m + 1 := by
      simp [Nat.add_comm]
    rw [hlen]
    simp [Paginated.runN, hstep, runN_exhausted]
  | more p pg u q rest hp hm hu hq hrest ih =>
    intro path0 q0 m c
    have hstep : Paginated.next scriptSend url_parse qs_from_str
        ⟨path0, some q0, none⟩ (c, List.map Except.ok (p :: rest)) =
        (.ok (some p), ⟨u.path, some (Json.obj q), none⟩,
          (c + 1, List.map Except.ok rest)) := by
      rcases huq : u.query with _ | qstr
      · have hqnil : q = [] := by simpa [QueryDecodes, huq] using hq
        subst hqnil
        simp [Paginated.next, scriptSend, hp, hm, hu, huq]
      · have hqs : qs_from_str qstr = .ok q := by
          simpa [QueryDecodes, huq] using hq
        simp [Paginated.next, scriptSend, hp, hm, hu, huq, hqs]
    simp only [List.map_cons] at hstep
    have hlen : (p :: rest).length + m = (rest.length + m) + 1 := by
      simp [Nat.add_right_comm]
    rw [hlen]
    obtain ⟨ih1, ih2, ih3, ih4⟩ := ih u.path (Json.obj q) m (c + 1)
    rcases hrun : Paginated.runN scriptSend url_parse qs_from_str
        (rest.length + m) ⟨u.path, some (Json.obj q), none⟩
        (c + 1, List.map Except.ok rest) with ⟨rs, p3, w3⟩
    rw [hrun] at ih1 ih2 ih3 ih4
    have hred : Paginated.runN scriptSend url_parse qs_from_str
        ((rest.length + m) + 1) ⟨path0, some q0, none⟩
        (c, List.map Except.ok (p :: rest)) =
        (.ok (some p) :: rs, p3, w3) := by
      simp [Paginated.runN, hstep, hrun]
    rw [hred]
    refine ⟨?_, ih2, ih3, ?_⟩
    · simp at ih1
      simp [ih1]
    · simp at ih4
      simp [ih4, Nat.add_comm, Nat.add_assoc, Nat.add_left_comm]

/-- C6: for an executor serving pages 1..k-1 with `has_more = true`
and a usable `next` URL and page k with `has_more = false`, k+m
advance calls return exactly the k pages in order followed by m
terminal no-more values, the cursor ends exhausted, and exactly k
executor calls were made no matter how large m is. -/
theorem c6_drain_yields_pages_then_terminal {T : Type}
    (url_parse : String → Except Error UrlParts)
    (qs_from_str : String → Except Error (List (String × Json)))
    (pages : List (SuccessResponse T))
    (hchain : PageChain url_parse qs_from_str pages)
    (path0 : String) (q0 : Json) (m : Nat) :
    (Paginated.runN scriptSend url_parse qs_from_str (pages.length + m)
        ⟨path0, some q0, none⟩ (0, pages.map .ok)).1 =
      pages.map (fun p => .ok (some p)) ++
        List.replicate m (.ok none) ∧
    (Paginated.runN scriptSend url_parse qs_from_str (pages.length + m)
        ⟨path0, some q0, none⟩ (0, pages.map .ok)).2.1.query = none ∧
    (Paginated.runN scriptSend url_parse qs_from_str (pages.length + m)
        ⟨path0, some q0, none⟩ (0, pages.map .ok)).2.1.error = none ∧
    (Paginated.runN scriptSend url_parse qs_from_str (pages.length + m)
        ⟨path0, some q0, none⟩ (0, pages.map .ok)).2.2 =
      (pages.length, []) := by
  have h := drain_aux url_parse qs_from_str pages hchain path0 q0 m 0
  simpa using h

/-- First fixture page: more pages follow, with a parseable next URL. -/
def pageA : SuccessResponse Nat :=
  ⟨7, ⟨"req-1",
    some ⟨10, "https://api.example.com/products?after=2", true, 2⟩⟩⟩

/-- Second fixture page: the last one. -/
def pageB : SuccessResponse Nat :=
  ⟨8, ⟨"req-2",
    some ⟨10, "https://api.example.com/products?after=3", false, 2⟩⟩⟩

/-- Fixture URL parser recognizing the first page's next URL. -/
def exUrl : String → Except Error UrlParts := fun s =>
  if s = "https://api.example.com/products?after=2" then
    .ok ⟨"/products", some "after=2"⟩
  else .error (.Url "bad")

/-- Fixture query-string decoder recognizing the first page's query. -/
def exQs : String → Except Error (List (String × Json)) := fun s =>
  if s = "after=2" then .ok [("after", Json.str "2")]
  else .error (.QueryString "bad")

/-- The two fixture pages form a well-formed chain. -/
theorem chainAB : PageChain exUrl exQs [pageA, pageB] := by
  refine PageChain.more pageA _ ⟨"/products", some "after=2"⟩
    [("after", Json.str "2")] [pageB] rfl rfl ?_ ?_
    (PageChain.last pageB _ rfl rfl)
  · simp [exUrl, pageA]
  · simp [QueryDecodes, exQs]

/-- C6 witness: draining the two fixture pages with two extra calls
yields both pages, then two terminal values, with exactly two executor
invocations. -/
theorem c6_witness :
    (Paginated.runN scriptSend exUrl exQs 4
        ⟨"/products", some (Json.obj []), none⟩
        (0, [.ok pageA, .ok pageB])).1 =
      [.ok (some pageA), .ok (some pageB), .ok none, .ok none] ∧
    (Paginated.runN scriptSend exUrl exQs 4
        ⟨"/products", some (Json.obj []), none⟩
        (0, [.ok pageA, .ok pageB])).2.2 = (2, []) := by
  have h := c6_drain_yields_pages_then_terminal exUrl exQs
    [pageA, pageB] chainAB "/products" (Json.obj []) 2
  exact ⟨h.1, h.2.2.2⟩

/-- The bulk loop on an exhausted cursor stops at once with an empty
result, regardless of fuel. -/
theorem all_exhausted {α W : Type}
    (send : W → Json → Method → String →
      Except Error (SuccessResponse (List α)) × W)
    (url_parse : String → Except Error UrlParts)
    (qs_from_str : String → Except Error (List (String × Json)))
    (n : Nat) (path : String) (w : W) :
    Paginated.all send url_parse qs_from_str n ⟨path, none, none⟩ w =
      (.ok [], ⟨path, none, none⟩, w) := by
  cases n with
  | zero => rfl
  | succ k => rfl

/-- Running the bulk loop over a well-formed page chain with the
counting script executor concatenates the pages' items in order, makes
one executor call per page, and leaves the cursor exhausted. -/
theorem all_aux {α : Type}
    (url_parse : String → Except Error UrlParts)
    (qs_from_str : String → Except Error (List (String × Json)))
    (pages : List (SuccessResponse (List α)))
    (hchain : PageChain url_parse qs_from_str pages) :
    ∀ (fuel : Nat) (path0 : String) (q0 : Json) (c : Nat),
    pages.length < fuel →
    (Paginated.all scriptSend url_parse qs_from_str fuel
        ⟨path0, some q0, none⟩ (c, pages.map .ok)).1 =
      .ok (pages.flatMap (fun p => p.data)) ∧
    (Paginated.all scriptSend url_parse qs_from_str fuel
        ⟨path0, some q0, none⟩ (c, pages.map .ok)).2.1.query = none ∧
    (Paginated.all scriptSend url_parse qs_from_str fuel
        ⟨path0, some q0, none⟩ (c, pages.map .ok)).2.1.error = none ∧
    (Paginated.all scriptSend url_parse qs_from_str fuel
        ⟨path0, some q0, none⟩ (c, pages.map .ok)).2.2 =
      (c + pages.length, []) := by
  induction hchain with
  | last p pg hp hm =>
    intro fuel path0 q0 c hfuel
    rcases fuel with _ | f
    · exact absurd hfuel (by simp)
    have hstep : Paginated.next scriptSend url_parse qs_from_str
        ⟨path0, some q0, none⟩ (c, [Except.ok p]) =
        (.ok (some p), ⟨path0, none, none⟩, (c + 1, [])) := by
      simp [Paginated.next, scriptSend, hp, hm]
    have hred : Paginated.all scriptSend url_parse qs_from_str (f + 1)
        ⟨path0, some q0, none⟩ (c, List.map Except.ok [p]) =
        (.ok (p.data ++ []), ⟨path0, none, none⟩, (c + 1, [])) := by
      simp [Paginated.all, hstep, all_exhausted]
    rw [hred]
    simp
  | more p pg u q rest hp hm hu hq hrest ih =>
    intro fuel path0 q0 c hfuel
    rcases fuel with _ | f
    · exact absurd hfuel (by simp)
    have hstep : Paginated.next scriptSend url_parse qs_from_str
        ⟨path0, some q0, none⟩ (c, List.map Except.ok (p :: rest)) =
        (.ok (some p), ⟨u.path, some (Json.obj q), none⟩,
          (c + 1, List.map Except.ok rest)) := by
      rcases huq : u.query with _ | qstr
      · have hqnil : q = [] := by simpa [QueryDecodes, huq] using hq
        subst hqnil
        simp [Paginated.next, scriptSend, hp, hm, hu, huq]
      · have hqs : qs_from_str qstr = .ok q := by
          simpa [QueryDecodes, huq] using hq
        simp [Paginated.next, scriptSend, hp, hm, hu, huq, hqs]
    simp only [List.map_cons] at hstep
    have hf : rest.length < f := by
      simp only [List.length_cons] at hfuel
      omega
    obtain ⟨ih1, ih2, ih3, ih4⟩ := ih f u.path (Json.obj q) (c + 1) hf
    rcases hrun : Paginated.all scriptSend url_parse qs_from_str f
        ⟨u.path, some (Json.obj q), none⟩
        (c + 1, List.map Except.ok rest) with ⟨res, p3, w3⟩
    rw [hrun] at ih1 ih2 ih3 ih4
    simp only at ih1 ih2 ih3 ih4
    subst ih1
    have hred : Paginated.all scriptSend url_parse qs_from_str (f + 1)
        ⟨path0, some q0, none⟩
        (c, List.map Except.ok (p :: rest)) =
        (.ok (p.data ++ rest.flatMap (fun r => r.data)), p3, w3) := by
      simp [Paginated.all, hstep, hrun]
    rw [hred]
    refine ⟨by simp, ih2, ih3, ?_⟩
    simp [ih4, Nat.add_comm, Nat.add_assoc, Nat.add_left_comm]

/-- C9: the bulk convenience loop, built on the single-page advance
transition, returns one concatenated sequence of all pages' items in
page order, whose length is the sum of the page sizes, using exactly
one executor call per page. -/
theorem c9_all_concatenates {α : Type}
    (url_parse : String → Except Error UrlParts)
    (qs_from_str : String → Except Error (List (String × Json)))
    (pages : List (SuccessResponse (List α)))
    (hchain : PageChain url_parse qs_from_str pages)
    (fuel : Nat) (path0 : String) (q0 : Json)
    (hfuel : pages.length < fuel) :
    (Paginated.all scriptSend url_parse qs_from_str fuel
        ⟨path0, some q0, none⟩ (0, pages.map .ok)).1 =
      .ok (pages.flatMap (fun p => p.data)) ∧
    (Paginated.all scriptSend url_parse qs_from_str fuel
        ⟨path0, some q0, none⟩ (0, pages.map .ok)).2.2 =
      (pages.length, []) ∧
    (pages.flatMap (fun p => p.data)).length =
      (pages.map (fun p => p.data.length)).sum := by
  have h := all_aux url_parse qs_from_str pages hchain fuel path0 q0 0
    hfuel
  refine ⟨h.1, by simpa using h.2.2.2, ?_⟩
  simp [List.length_flatMap, Function.comp_def]

/-- First list-valued fixture page, holding two items. -/
def pageC : SuccessResponse (List Nat) :=
  ⟨[1, 2], ⟨"req-3",
    some ⟨10, "https://api.example.com/products?after=2", true, 3⟩⟩⟩

/-- Second list-valued fixture page, holding one item, the last. -/
def pageD : SuccessResponse (List Nat) :=
  ⟨[3], ⟨"req-4",
    some ⟨10, "https://api.example.com/products?after=3", false, 3⟩⟩⟩

/-- The two list-valued fixture pages form a well-formed chain. -/
theorem chainCD : PageChain exUrl exQs [pageC, pageD] := by
  refine PageChain.more pageC _ ⟨"/products", some "after=2"⟩
    [("after", Json.str "2")] [pageD] rfl rfl ?_ ?_
    (PageChain.last pageD _ rfl rfl)
  · simp [exUrl, pageC]
  · simp [QueryDecodes, exQs]

/-- C9 witness: the bulk loop over the two fixture pages of sizes 2
and 1 returns the three items in page order with two executor calls. -/
theorem c9_witness :
    (Paginated.all scriptSend exUrl exQs 3
        ⟨"/products", some (Json.obj []), none⟩
        (0, [.ok pageC, .ok pageD])).1 = .ok [1, 2, 3] ∧
    (Paginated.all scriptSend exUrl exQs 3
        ⟨"/products", some (Json.obj []), none⟩
        (0, [.ok pageC, .ok pageD])).2.2 = (2, []) := by
  have h := c9_all_concatenates exUrl exQs [pageC, pageD] chainCD 3
    "/products" (Json.obj []) (by simp)
  exact ⟨h.1, h.2.1⟩

/-- The per-part loop only ever fails with the part-format or the
integer-parse kind, never with `ParseError`. -/
theorem from_str_loop_no_parse_error :
    ∀ (parts : List (List Char)) (ts : Option Int)
      (sg : Option (List Char)),
    from_str_loop parts ts sg ≠ .error (.PaddleSignature .ParseError) := by
  intro parts
  induction parts with
  | nil =>
    intro ts sg h
    simp [from_str_loop] at h
  | cons part rest ih =>
    intro ts sg h
    simp only [from_str_loop] at h
    repeat' split at h
    all_goals first
      | exact ih _ _ h
      | exact absurd h (by simp)

/-- When the hex decoder returns an error, it is the integer-parse
kind. -/
theorem decode_hex_error_kind :
    ∀ (cs : List Char) (e : Error),
    decode_hex cs = .value (.error e) → e = .ParseIntError := by
  intro cs
  induction cs using decode_hex.induct with
  | case1 =>
    intro e h
    simp [decode_hex] at h
  | case2 c =>
    intro e h
    simp [decode_hex] at h
  | case3 c1 c2 rest hdig =>
    intro e h
    simp [decode_hex, hdig] at h
    exact h.symm
  | case4 c1 c2 rest b hdig hrest ih =>
    intro e h
    simp [decode_hex, hdig, hrest] at h
  | case5 c1 c2 rest b hdig e2 hrest ih =>
    intro e h
    simp [decode_hex, hdig, hrest] at h
    subst h
    exact ih _ hrest
  | case6 c1 c2 rest b hdig bs hrest ih =>
    intro e h
    simp [decode_hex, hdig, hrest] at h

/-- C3 counterexample: a header that is non-empty, has exactly two
semicolon parts, each a well-formed key=value pair, but no `ts` key,
fails with `InvalidFormat` rather than the claimed `ParseError`; and a
header whose `ts` value is not a parseable integer fails with the
integer-parse kind, again not `ParseError`. -/
theorem c3_counterexample :
    Signature.from_str "foo=1;h1=ab" =
      .value (.error (.PaddleSignature .InvalidFormat)) ∧
    Signature.from_str "foo=1;h1=ab" ≠
      .value (.error (.PaddleSignature .ParseError)) ∧
    Signature.from_str "ts=1671552a777;h1=ab" =
      .value (.error .ParseIntError) := by
  refine ⟨by decide, by decide, by decide⟩

/-- C3 (amended): when splitting succeeded and the per-part loop ran to
completion without finding both a valid timestamp and a MAC string, the
parser fails with the `InvalidFormat` kind (the same kind as the wrong
part-count failure); the `ParseError` kind is never produced by the
parser at all, and a `ts` value that is not a parseable integer aborts
the loop early with the integer-parse kind. -/
theorem c3_missing_fields_give_invalid_format :
    (∀ (s : String) (ts : Option Int) (sg : Option (List Char)),
      s.data ≠ [] →
      (splitOnChar ';' s.data).length = 2 →
      from_str_loop (splitOnChar ';' s.data) none none = .ok (ts, sg) →
      ts = none ∨ sg = none →
      Signature.from_str s =
        .value (.error (.PaddleSignature .InvalidFormat))) ∧
    (∀ s : String,
      Signature.from_str s ≠
        .value (.error (.PaddleSignature .ParseError))) := by
  constructor
  · intro s ts sg hne hlen hloop hmiss
    simp only [Signature.from_str]
    rw [if_neg hne, if_neg (by simp [hlen]), hloop]
    rcases ts with _ | t
    · rfl
    · rcases sg with _ | g
      · rfl
      · rcases hmiss with h | h <;> exact absurd h (by simp)
  · intro s h
    simp only [Signature.from_str] at h
    split at h
    · simp at h
    · split at h
      · simp at h
      · split at h
        · rename_i e hloop
          exact from_str_loop_no_parse_error _ _ _
            (hloop.trans (congrArg Except.error (by
              injection h with h2
              injection h2)))
        · split at h
          · exact absurd h (by simp)
          · rename_i e hdec
            have := decode_hex_error_kind _ _ hdec
            subst this
            simp at h
          · simp at h
        · simp at h

/-- C3 witness: the amended theorem applied to the concrete header
with an unrecognized first key, whose loop completes with no
timestamp. -/
theorem c3_witness :
    Signature.from_str "foo=1;h1=ab" =
      .value (.error (.PaddleSignature .InvalidFormat)) :=
  c3_missing_fields_give_invalid_format.1 "foo=1;h1=ab" none
    (some ['a', 'b']) (by decide) (by decide) (by decide) (Or.inl rfl)

/-- C4: evaluating the parser at a header whose h1 value has odd
length shows the panic: the hex decoder's two-character slice runs
past the end of the string, so parsing is not total. -/
theorem c4_from_str_panics_on_odd_hex :
    Signature.from_str "ts=1671552777;h1=abc" = .panics := by decide

/-- The chunk splitter never returns an empty list of chunks. -/
theorem splitOnChar_ne_nil (sep : Char) (cs : List Char) :
    splitOnChar sep cs ≠ [] := by
  cases cs with
  | nil => simp [splitOnChar]
  | cons c rest =>
    simp only [splitOnChar]
    split
    · simp
    · split
      · simp
      · simp

/-- Splitting on a character yields one more chunk than the character
has occurrences: the split is on every occurrence, not just the
first. -/
theorem splitOnChar_length (sep : Char) :
    ∀ (cs : List Char),
    (splitOnChar sep cs).length = cs.count sep + 1 := by
  intro cs
  induction cs with
  | nil => simp [splitOnChar]
  | cons c rest ih =>
    simp only [splitOnChar]
    by_cases hc : c = sep
    · rw [if_pos hc]
      simp [List.count_cons, hc, ih]
    · rw [if_neg hc]
      rcases hr : splitOnChar sep rest with _ | ⟨g, gs⟩
      · exact absurd hr (splitOnChar_ne_nil sep rest)
      · rw [hr] at ih
        simp only [List.length_cons] at ih ⊢
        rw [List.count_cons]
        simp [hc, Ne.symm hc]
        omega

/-- C7 counterexample: the part `h1=ab=cd`, whose value contains a
further equals sign, splits into three pieces, and the parser rejects
the whole header with `InvalidPartFormat` — it does not split on the
first equals sign only, and does not accept such a part. -/
theorem c7_counterexample :
    Signature.from_str "ts=1;h1=ab=cd" =
      .value (.error (.PaddleSignature .InvalidPartFormat)) ∧
    (splitOnChar '=' ['h', '1', '=', 'a', 'b', '=', 'c', 'd']).length =
      3 := by
  refine ⟨by decide, by decide⟩

/-- C7 (amended): each part is split on every `=` character, giving
one piece more than the number of occurrences (so a value containing a
further `=` is rejected, not accepted); a part aborts the loop with
`InvalidPartFormat` exactly when this split does not give two pieces:
any part with a piece count other than two aborts so, and a part with
exactly two pieces never produces `InvalidPartFormat` from its own
examination. -/
theorem c7_split_on_every_equals :
    (∀ part : List Char,
      (splitOnChar '=' part).length = part.count '=' + 1) ∧
    (∀ (part : List Char) (rest : List (List Char)) (ts : Option Int)
        (sg : Option (List Char)),
      (splitOnChar '=' part).length ≠ 2 →
      from_str_loop (part :: rest) ts sg =
        .error (.PaddleSignature .InvalidPartFormat)) ∧
    (∀ (part : List Char) (ts : Option Int) (sg : Option (List Char)),
      (splitOnChar '=' part).length = 2 →
      from_str_loop [part] ts sg ≠
        .error (.PaddleSignature .InvalidPartFormat)) := by
  refine ⟨splitOnChar_length '=', ?_, ?_⟩
  · intro part rest ts sg hcount
    simp [from_str_loop, hcount]
  · intro part ts sg hcount h
    simp only [from_str_loop] at h
    rw [if_neg (by simp [hcount])] at h
    repeat' split at h
    all_goals simp_all [from_str_loop]

/-- C7 witness: the amended theorem applied to a concrete part with no
equals sign (one piece — rejected) and a concrete part with exactly one
equals sign (two pieces — not rejected as a part). -/
theorem c7_witness :
    from_str_loop [['h', '1']] none none =
      .error (.PaddleSignature .InvalidPartFormat) ∧
    from_str_loop [['t', 's', '=', '1']] none none ≠
      .error (.PaddleSignature .InvalidPartFormat) :=
  ⟨c7_split_on_every_equals.2.1 ['h', '1'] [] none none (by decide),
    c7_split_on_every_equals.2.2 ['t', 's', '=', '1'] none none
      (by decide)⟩

/-- String concatenation concatenates byte sequences. -/
theorem strBytes_append (a b : String) :
    strBytes (a ++ b) = strBytes a ++ strBytes b := by
  simp [strBytes, String.data_append]

/-- The canonical signed payload's bytes are exactly the decimal
timestamp bytes, one colon byte (58), and the raw body bytes, with no
other separator. -/
theorem signedPayload_bytes (ts : Int) (body : String) :
    strBytes (signedPayload ts body) =
      strBytes (toString ts) ++ 58 :: strBytes body := by
  simp [signedPayload, strBytes_append]
  rfl

/-- The freshness precondition of a verification call: no bound, or
the bound not yet exceeded at the given current time. -/
def FreshnessOk (mv : Option Int) (ts now : Int) : Prop :=
  match mv with
  | none => True
  | some v => ¬ ts + v < now

/-- C2: when the freshness check passes (or is disabled), verification
succeeds exactly when the parsed MAC bytes equal HMAC-SHA256 keyed
with the raw secret bytes over the canonical payload — the ASCII
decimal timestamp, a colon byte, and the raw body bytes — and any
parsed MAC different from that value (in particular one with any
single byte changed) makes verification fail with the MAC error. -/
theorem c2_verify_iff (sig : Signature) (body key : String)
    (mv : Option Int) (now : Int)
    (hfresh : FreshnessOk mv sig.timestamp now) :
    (Signature.verify sig body key mv now = .ok () ↔
      sig.signature = hmacSha256 (strBytes key)
        (strBytes (toString sig.timestamp) ++ 58 :: strBytes body)) ∧
    (sig.signature ≠ hmacSha256 (strBytes key)
        (strBytes (toString sig.timestamp) ++ 58 :: strBytes body) →
      Signature.verify sig body key mv now = .error .MacError) := by
  have hpay := signedPayload_bytes sig.timestamp body
  rcases mv with _ | v
  · constructor
    · simp only [Signature.verify, hpay]
      by_cases hmac : sig.signature = hmacSha256 (strBytes key)
          (strBytes (toString sig.timestamp) ++ 58 :: strBytes body)
      · simp [hmac]
      · simp [hmac]
    · intro hne
      simp only [Signature.verify, hpay]
      simp [hne]
  · have hnl : ¬ sig.timestamp + v < now := hfresh
    constructor
    · simp only [Signature.verify, hpay]
      rw [if_neg hnl]
      by_cases hmac : sig.signature = hmacSha256 (strBytes key)
          (strBytes (toString sig.timestamp) ++ 58 :: strBytes body)
      · simp [hmac]
      · simp [hmac]
    · intro hne
      simp only [Signature.verify, hpay]
      rw [if_neg hnl]
      simp [hne]

set_option maxRecDepth 1000000 in
/-- C2 witness: the characterization applied to a concrete signature
carrying exactly the HMAC-SHA256 of "1671552777:hello" under the
secret "secret", with the freshness check disabled. -/
theorem c2_witness :
    Signature.verify
      ⟨1671552777,
        [63, 58, 98, 236, 89, 158, 9, 58, 184, 214, 181, 169, 10, 137,
          90, 229, 98, 28, 182, 199, 133, 185, 223, 161, 211, 34, 213,
          30, 92, 131, 39, 42]⟩
      "hello" "secret" none 0 = .ok () :=
  (c2_verify_iff
    ⟨1671552777,
      [63, 58, 98, 236, 89, 158, 9, 58, 184, 214, 181, 169, 10, 137,
        90, 229, 98, 28, 182, 199, 133, 185, 223, 161, 211, 34, 213,
        30, 92, 131, 39, 42]⟩
    "hello" "secret" none 0 trivial).1.mpr (by decide)

/-- C5: with a bound of v seconds, verification fails with
`MaxVarianceExceeded v` exactly when the current time exceeds the
signature timestamp plus v; when it does, the outcome is the same for
every MAC, body and secret (the staleness check precedes all MAC
work); with no bound, the outcome does not depend on the current time
at all, and a correct MAC verifies no matter how old the timestamp
is. -/
theorem c5_staleness (sig : Signature) (body key : String)
    (now : Int) :
    (∀ v : Int,
      Signature.verify sig body key (some v) now =
          .error (.PaddleSignature (.MaxVarianceExceeded v)) ↔
        sig.timestamp + v < now) ∧
    (∀ (v : Int) (sig2 : Signature) (body2 key2 : String),
      sig2.timestamp = sig.timestamp →
      sig.timestamp + v < now →
      Signature.verify sig2 body2 key2 (some v) now =
        .error (.PaddleSignature (.MaxVarianceExceeded v))) ∧
    (∀ now2 : Int,
      Signature.verify sig body key none now =
        Signature.verify sig body key none now2) ∧
    (sig.signature = hmacSha256 (strBytes key)
        (strBytes (signedPayload sig.timestamp body)) →
      Signature.verify sig body key none now = .ok ()) := by
  refine ⟨?_, ?_, ?_, ?_⟩
  · intro v
    constructor
    · intro h
      by_contra hnl
      simp only [Signature.verify] at h
      rw [if_neg hnl] at h
      by_cases hmac : sig.signature = hmacSha256 (strBytes key)
          (strBytes (signedPayload sig.timestamp body))
      · simp [hmac] at h
      · simp [hmac] at h
    · intro hl
      simp [Signature.verify, hl]
  · intro v sig2 body2 key2 hts hl
    simp [Signature.verify, hts, hl]
  · intro now2
    rfl
  · intro hmac
    simp [Signature.verify, hmac]

set_option maxRecDepth 1000000 in
/-- C5 witness: a stale call fails with the bound in the error, and an
absurdly old timestamp with no bound and a correct MAC succeeds. -/
theorem c5_witness :
    Signature.verify ⟨1000, []⟩ "b" "k" (some 5) 1006 =
      .error (.PaddleSignature (.MaxVarianceExceeded 5)) ∧
    Signature.verify
      ⟨0, [159, 143, 127, 9, 29, 65, 240, 126, 30, 76, 128, 5, 72,
        144, 183, 36, 247, 156, 6, 142, 39, 4, 243, 77, 207, 168, 9,
        53, 159, 170, 141, 50]⟩
      "b" "k" none 99999999999 = .ok () :=
  ⟨((c5_staleness ⟨1000, []⟩ "b" "k" 1006).1 5).mpr (by decide),
    (c5_staleness
      ⟨0, [159, 143, 127, 9, 29, 65, 240, 126, 30, 76, 128, 5, 72,
        144, 183, 36, 247, 156, 6, 142, 39, 4, 243, 77, 207, 168, 9,
        53, 159, 170, 141, 50]⟩
      "b" "k" 99999999999).2.2.2 (by decide)⟩

end Paddle
